import Mathlib

/-!
Verification development for the p5.grain library (src/p5.grain.js).

The JavaScript source is shallowly embedded: JS numbers are modelled as
rationals (`ℚ`), pixel-buffer sample values as integers (`ℤ`), buffers as
functions `Nat → ℤ`, and the host random source `random() ∈ [0,1)` as an
explicit stream of rationals supplied to each operation.  The two while loops
of `textureOverlay` are embedded as a fuel-indexed step function returning
`none` when the fuel is exhausted before the loop exits, so that
non-termination of the source loop is expressible.
-/

/-! ## Texture overlay sweep (textureOverlay, src/p5.grain.js lines 326-401)

A single tile draw records the arguments of the `scale` call in effect
(`sx`, `sy`; both `1` when no `scale` was issued inside the push/pop) and the
four numeric arguments of the `image` call (`ix`, `iy`, `iw`, `ih`). -/

structure OverlayDraw where
  sx : ℚ
  sy : ℚ
  ix : ℚ
  iy : ℚ
  iw : ℚ
  ih : ℚ
  deriving DecidableEq, Repr

/-- The tile draw issued by the body of the inner while loop, following the
branch structure of src/p5.grain.js lines 337-389: when `reflect` is set the
four orientations are selected by the pair `(tRowFirst, tColFirst)`, each a
`scale`+`image` pair scoped by push/pop; otherwise a plain `image` call. -/
def overlayTileDraw (reflect tRowFirst tColFirst : Bool) (tX tY tW tH : ℚ) :
    OverlayDraw :=
  if reflect then
    if tRowFirst then
      if tColFirst then
        ⟨1, 1, tX, tY, tW, tH⟩
      else
        ⟨-1, 1, -tX, tY, -tW, tH⟩
    else
      if tColFirst then
        ⟨1, -1, tX, -tY, tW, -tH⟩
      else
        ⟨-1, -1, -tX, -tY, -tW, -tH⟩
  else
    ⟨1, 1, tX, tY, tW, tH⟩

/-- Fuel-indexed embedding of the nested while loops of `textureOverlay`
(src/p5.grain.js lines 335-401).  State: `tX`, `tY`, `tRowFirst`,
`tColFirst`, and the list of draws issued so far.  One unit of fuel is spent
per iteration of the inner loop body (or per outer-loop test that skips the
inner loop); `none` means the fuel ran out with the loop still running. -/
def sweepAux (W H ax tW tH : ℚ) (reflect : Bool) :
    Nat → ℚ → ℚ → Bool → Bool → List OverlayDraw → Option (List OverlayDraw)
  | 0, _, _, _, _, _ => none
  | fuel + 1, tX, tY, tRowFirst, tColFirst, acc =>
    if tY < H then
      if tX < W then
        let d := overlayTileDraw reflect tRowFirst tColFirst tX tY tW tH
        if W ≤ tX + tW then
          sweepAux W H ax tW tH reflect fuel ax (tY + tH) (!tRowFirst) true
            (acc ++ [d])
        else
          sweepAux W H ax tW tH reflect fuel (tX + tW) tY tRowFirst (!tColFirst)
            (acc ++ [d])
      else
        sweepAux W H ax tW tH reflect fuel tX tY (!tRowFirst) tColFirst acc
    else
      some acc

/-- The tiling sweep of `textureOverlay`, started from the stored anchor pair
`(tX_anchor, tY)` with both row/column flags `true` (src lines 326-334). -/
def textureOverlaySweep (W H anchorX anchorY tW tH : ℚ) (reflect : Bool)
    (fuel : Nat) : Option (List OverlayDraw) :=
  sweepAux W H anchorX tW tH reflect fuel anchorX anchorY true true []

/-- The half-open interval of x-coordinates a draw covers on the target:
the `image` destination rectangle endpoints mapped through the `scale` in
effect. -/
def coveredX (d : OverlayDraw) : ℚ × ℚ :=
  (min (d.sx * d.ix) (d.sx * (d.ix + d.iw)),
   max (d.sx * d.ix) (d.sx * (d.ix + d.iw)))

/-- The half-open interval of y-coordinates a draw covers on the target. -/
def coveredY (d : OverlayDraw) : ℚ × ℚ :=
  (min (d.sy * d.iy) (d.sy * (d.iy + d.ih)),
   max (d.sy * d.iy) (d.sy * (d.iy + d.ih)))

/-- A draw covers the point `(x, y)` of the destination surface. -/
def coversPoint (d : OverlayDraw) (x y : ℚ) : Prop :=
  (coveredX d).1 ≤ x ∧ x < (coveredX d).2 ∧
  (coveredY d).1 ≤ y ∧ y < (coveredY d).2

instance (d : OverlayDraw) (x y : ℚ) : Decidable (coversPoint d x y) := by
  unfold coversPoint
  infer_instance

/-- A draw is horizontally mirrored when the `scale` in effect flips the
x-axis. -/
def horizontallyMirrored (d : OverlayDraw) : Bool := decide (d.sx < 0)

/-- A draw is vertically mirrored when the `scale` in effect flips the
y-axis. -/
def verticallyMirrored (d : OverlayDraw) : Bool := decide (d.sy < 0)

/-- The position (top-left corner) of the destination rectangle of a draw. -/
def tilePos (d : OverlayDraw) : ℚ × ℚ := ((coveredX d).1, (coveredY d).1)

/-- The draws of one completed row of the sweep, counted: starting from
column flag `cf` at x-coordinate `tX`, `n` consecutive tiles stepping by
`tW`, the column flag flipping at each step (as the inner loop does when it
does not break). -/
def rowDraws (reflect tRowFirst : Bool) (tW tH : ℚ) :
    Nat → ℚ → ℚ → Bool → List OverlayDraw
  | 0, _, _, _ => []
  | n + 1, tX, tY, tColFirst =>
    overlayTileDraw reflect tRowFirst tColFirst tX tY tW tH ::
      rowDraws reflect tRowFirst tW tH n (tX + tW) tY (!tColFirst)

/-- The rows of a completed sweep: `m` rows of `n` tiles each, every row
starting at x-coordinate `ax` with column flag `true`, the row flag flipping
from row to row. -/
def gridRows (reflect : Bool) (ax tW tH : ℚ) (n : Nat) :
    Nat → ℚ → Bool → List (List OverlayDraw)
  | 0, _, _ => []
  | m + 1, tY, tRowFirst =>
    rowDraws reflect tRowFirst tW tH n ax tY true ::
      gridRows reflect ax tW tH n m (tY + tH) (!tRowFirst)

/-! ## Argument values and validation (src/p5.grain.js lines 442-580)

A JS primitive value as far as `#validateArguments` distinguishes them via
`typeof`. -/

inductive JsPrim where
  | undefined
  | number (q : ℚ)
  | boolean (b : Bool)
  | str (s : String)
  deriving DecidableEq, Repr

inductive JsType where
  | undefined
  | number
  | boolean
  | string
  deriving DecidableEq, Repr

def JsPrim.typeof : JsPrim → JsType
  | .undefined => .undefined
  | .number _ => .number
  | .boolean _ => .boolean
  | .str _ => .string

/-- JS truthiness of a primitive: `undefined` is falsy, a number is truthy
unless it is `0`, a boolean is itself, a string is truthy unless empty. -/
def JsPrim.truthy : JsPrim → Bool
  | .undefined => false
  | .number q => decide (q ≠ 0)
  | .boolean b => b
  | .str s => decide (s ≠ "")

/-- The `config.animate` field of a `textureOverlay` config: absent, a
boolean, or an object with optional numeric `atFrame`/`amount` fields. -/
inductive AnimateField where
  | undefined
  | boolean (b : Bool)
  | obj (atFrame amount : Option ℚ)
  deriving DecidableEq, Repr

/-- JS truthiness of the `config.animate` field (objects are truthy). -/
def AnimateField.truthy : AnimateField → Bool
  | .undefined => false
  | .boolean b => b
  | .obj _ _ => true

/-- The fields of a `textureOverlay` config object; each optional field is a
JS primitive so that the `typeof` checks of `#validateArguments` are
meaningful.  `animate` is not inspected by validation at all. -/
structure OverlayConfigJS where
  width : JsPrim
  height : JsPrim
  mode : JsPrim
  reflect : JsPrim
  animate : AnimateField
  deriving DecidableEq, Repr

/-- The second argument of `textureOverlay` as passed by the caller: a JS
primitive (in particular `undefined` when the argument is omitted) or a
config object. -/
inductive ConfigArg where
  | prim (p : JsPrim)
  | obj (c : OverlayConfigJS)
  deriving DecidableEq, Repr

/-- The `case 'textureOverlay'` branch of `#validateArguments`
(src/p5.grain.js lines 533-575): returns the message of the first error
thrown, or `none` when validation passes.  When `ignoreErrors` is set the
whole switch is skipped (line 443). -/
def validateTextureOverlay (ignoreErrors textureIsP5Image : Bool)
    (config : ConfigArg) (pgDefined pgIsGraphics : Bool) : Option String :=
  if ignoreErrors then none
  else if !textureIsP5Image then
    some "The texture argument passed to textureOverlay() must be an instance of p5.Image."
  else if (match config with
           | .prim .undefined => false
           | .prim _ => true
           | .obj _ => false) then
    some "The optional config argument passed to textureOverlay() must be of type object."
  else
    match config with
    | .obj c =>
      if c.width.typeof ≠ .undefined ∧ c.width.typeof ≠ .number then
        some "The optional config.width property passed to textureOverlay() must be of type number."
      else if c.height.typeof ≠ .undefined ∧ c.height.typeof ≠ .number then
        some "The optional config.height property passed to textureOverlay() must be of type number."
      else if c.mode.typeof ≠ .undefined ∧ c.mode.typeof ≠ .string then
        some "The optional config.mode property passed to textureOverlay() must be of type string."
      else if c.reflect.typeof ≠ .undefined ∧ c.reflect.typeof ≠ .boolean then
        some "The optional config.reflect property passed to textureOverlay() must be of type boolean."
      else if pgDefined ∧ ¬ pgIsGraphics then
        some "The offscreen graphics buffer for textureOverlay() must be an instance of p5.Graphics."
      else none
    | .prim _ =>
      if pgDefined ∧ ¬ pgIsGraphics then
        some "The offscreen graphics buffer for textureOverlay() must be an instance of p5.Graphics."
      else none

/-! ## Random draws (src/p5.grain.js lines 425-429) -/

/-- `#randomIntInclusive(min, max)`: `Math.floor(random() * (max - min + 1)
+ min)` after `min = Math.ceil(min)`, `max = Math.floor(max)`; `r` is the
value returned by the injected `random()`. -/
def randomIntInclusive (r minq maxq : ℚ) : ℤ :=
  let mn : ℤ := ⌈minq⌉
  let mx : ℤ := ⌊maxq⌋
  ⌊r * ((mx : ℚ) - (mn : ℚ) + 1) + (mn : ℚ)⌋

/-- The per-draw grain delta of `granulateSimple`/`granulateChannels`:
`#randomIntInclusive(-_amount, _amount)` with `_amount = round(amount)`
(src lines 104, 111, 142, 149-153). -/
def granulateDelta (amount r : ℚ) : ℤ :=
  randomIntInclusive r (-((round amount : ℤ) : ℚ)) ((round amount : ℤ) : ℚ)

/-! ## Persistent animation state (src/p5.grain.js lines 20-32) -/

/-- The `#textureOverlay` private state: `frameCount`, `tX_anchor`, `tX`,
`tY`, all initially `0` (constructor, lines 26-31).  `tX` is written only by
the constructor. -/
structure TOState where
  frameCount : ℤ
  tX_anchor : ℚ
  tX : ℚ
  tY : ℚ
  deriving DecidableEq, Repr

def initialTOState : TOState := ⟨0, 0, 0, 0⟩

/-- The animation block of `textureOverlay` (src/p5.grain.js lines 313-325):
when `animate` is truthy the frame counter advances, and on reaching
`atFrame` the anchors are redrawn as `-floor(random() * amount)` and the
counter resets to `0`; `r1`, `r2` are the two `random()` values. -/
def textureOverlayAnimateStep (animate : Bool) (atFrame : ℤ) (amount : ℚ)
    (r1 r2 : ℚ) (s : TOState) : TOState :=
  if animate then
    if s.frameCount + 1 ≥ atFrame then
      { s with
          frameCount := 0
          tX_anchor := -((⌊r1 * amount⌋ : ℤ) : ℚ)
          tY := -((⌊r2 * amount⌋ : ℤ) : ℚ) }
    else { s with frameCount := s.frameCount + 1 }
  else s

/-- The `#textureAnimate` private state plus the shifted element's
background-position offset (the externally visible effect of
`textureAnimate`). -/
structure TextureAnimateModel where
  frameCount : ℤ
  bgPos : ℤ × ℤ
  deriving DecidableEq, Repr

/-- One call of `textureAnimate` (src/p5.grain.js lines 223-245) with
resolved `atFrame` and `amount`: the counter advances, and on reaching
`atFrame` the background position is redrawn as
`(floor(random()*amount), floor(random()*amount))` and the counter resets. -/
def textureAnimateCall (atFrame : ℤ) (amount : ℚ) (r1 r2 : ℚ)
    (s : TextureAnimateModel) : TextureAnimateModel :=
  if s.frameCount + 1 ≥ atFrame then
    { frameCount := 0, bgPos := (⌊r1 * amount⌋, ⌊r2 * amount⌋) }
  else { s with frameCount := s.frameCount + 1 }

/-- `config && config.atFrame ? round(config.atFrame) : 2` (src line 227,
and line 302 for the overlay variant where the object is
`config.animate`). -/
def resolveAtFrame (atFrame : Option ℚ) : ℤ :=
  match atFrame with
  | some q => if q ≠ 0 then round q else 2
  | none => 2

/-- `config && config.amount ? round(config.amount) : min(width, height)`
(src lines 230-231, and lines 305-306 for the overlay variant). -/
def resolveAmount (amount : Option ℚ) (w h : ℚ) : ℚ :=
  match amount with
  | some q => if q ≠ 0 then ((round q : ℤ) : ℚ) else min w h
  | none => min w h

/-! ## Pixel-buffer operations (src/p5.grain.js lines 100-202)

A pixel buffer is a function from sample index to sample value; `rs` is the
stream of values returned by successive `random()` calls. -/

/-- An offscreen graphics buffer: width, height and pixel density. -/
structure GraphicsBuffer where
  width : Nat
  height : Nat
  density : Nat
  deriving DecidableEq, Repr

/-- `const _alpha = alpha || false` (src lines 105, 143): the optional alpha
argument defaults to `false`. -/
def resolveAlpha : Option Bool → Bool
  | some b => b
  | none => false

/-- The sample count the granulate/tinker loops iterate over
(src lines 106-108, 144-146, 195-197):
`4 * (width * density) * (height * density)` where `width`/`height` are the
MAIN canvas globals and only `density` comes from the target (`pg`). -/
def granulateTotalSamples (mainWidth mainHeight mainDensity : Nat)
    (pg : Option GraphicsBuffer) : Nat :=
  let density := match pg with
    | some g => g.density
    | none => mainDensity
  4 * (mainWidth * density) * (mainHeight * density)

/-- The length of the pixel buffer owned by a surface of the given width,
height and pixel density (spec §3: 4 samples per pixel, both dimensions
scaled by the density factor). -/
def surfaceBufferLength (width height density : Nat) : Nat :=
  4 * (width * density) * (height * density)

/-- One iteration of the `granulateSimple` loop body (src lines 110-118):
the same grain delta `g` is added to samples `i`, `i+1`, `i+2`, and to
`i+3` only when the alpha flag is set. -/
def granulateSimpleStep (g : ℤ) (alpha : Bool) (i : Nat) (px : Nat → ℤ) :
    Nat → ℤ :=
  fun j =>
    if j = i then px j + g
    else if j = i + 1 then px j + g
    else if j = i + 2 then px j + g
    else if j = i + 3 then (if alpha then px j + g else px j)
    else px j

/-- The `granulateSimple` loop over the first `k` pixels (loop index
`i = 4 * pixel`), one `random()` draw per pixel. -/
def granulateSimpleLoop (rs : Nat → ℚ) (amount : ℚ) (alpha : Bool)
    (px : Nat → ℤ) : Nat → Nat → ℤ
  | 0 => px
  | k + 1 =>
    granulateSimpleStep (granulateDelta amount (rs k)) alpha (4 * k)
      (granulateSimpleLoop rs amount alpha px k)

/-- `granulateSimple(amount, alpha, pg)` (src lines 100-120) acting on the
target buffer `px`: the loop runs for `i = 0, 4, ..., total - 4`, i.e.
`total / 4` pixels. -/
def granulateSimpleOp (amount : ℚ) (alphaArg : Option Bool)
    (mainWidth mainHeight mainDensity : Nat) (pg : Option GraphicsBuffer)
    (rs : Nat → ℚ) (px : Nat → ℤ) : Nat → ℤ :=
  granulateSimpleLoop rs amount (resolveAlpha alphaArg) px
    (granulateTotalSamples mainWidth mainHeight mainDensity pg / 4)

/-- The number of `random()` draws `granulateChannels` consumes per pixel:
one per updated channel. -/
def channelsDrawCount (alpha : Bool) : Nat := if alpha then 4 else 3

/-- One iteration of the `granulateChannels` loop body (src lines 148-155):
an independent grain delta per channel. -/
def granulateChannelsStep (gR gG gB gA : ℤ) (alpha : Bool) (i : Nat)
    (px : Nat → ℤ) : Nat → ℤ :=
  fun j =>
    if j = i then px j + gR
    else if j = i + 1 then px j + gG
    else if j = i + 2 then px j + gB
    else if j = i + 3 then (if alpha then px j + gA else px j)
    else px j

/-- The `granulateChannels` loop over the first `k` pixels; pixel `k`
consumes the stream values at `dc*k, dc*k+1, dc*k+2` (and `dc*k+3` when the
alpha flag is set), `dc = channelsDrawCount alpha`. -/
def granulateChannelsLoop (rs : Nat → ℚ) (amount : ℚ) (alpha : Bool)
    (px : Nat → ℤ) : Nat → Nat → ℤ
  | 0 => px
  | k + 1 =>
    let dc := channelsDrawCount alpha
    granulateChannelsStep
      (granulateDelta amount (rs (dc * k)))
      (granulateDelta amount (rs (dc * k + 1)))
      (granulateDelta amount (rs (dc * k + 2)))
      (granulateDelta amount (rs (dc * k + 3)))
      alpha (4 * k)
      (granulateChannelsLoop rs amount alpha px k)

/-- `granulateChannels(amount, alpha, pg)` (src lines 138-157) acting on the
target buffer `px`. -/
def granulateChannelsOp (amount : ℚ) (alphaArg : Option Bool)
    (mainWidth mainHeight mainDensity : Nat) (pg : Option GraphicsBuffer)
    (rs : Nat → ℚ) (px : Nat → ℤ) : Nat → ℤ :=
  granulateChannelsLoop rs amount (resolveAlpha alphaArg) px
    (granulateTotalSamples mainWidth mainHeight mainDensity pg / 4)

/-- The `(index, total)` argument pairs `tinkerPixels` (src lines 191-202)
passes to its callback: one call per pixel, index stepping by 4. -/
def tinkerPixelsCalls (mainWidth mainHeight mainDensity : Nat)
    (pg : Option GraphicsBuffer) : List (Nat × Nat) :=
  let total := granulateTotalSamples mainWidth mainHeight mainDensity pg
  (List.range (total / 4)).map (fun k => (4 * k, total))

/-! ## The full textureOverlay operation (src/p5.grain.js lines 285-408) -/

/-- A JS runtime failure: a thrown validation `Error`, or a `TypeError` from
reading a property of `undefined`. -/
inductive JsError where
  | thrown (msg : String)
  | typeError (msg : String)
  deriving DecidableEq, Repr

/-- The object the parameter-resolution code reads its properties from:
`none` when the config argument is `undefined` (every property access
throws a TypeError); a defined non-object primitive boxes to an object all
of whose properties are `undefined`. -/
def configView : ConfigArg → Option OverlayConfigJS
  | .prim .undefined => none
  | .prim _ => some ⟨.undefined, .undefined, .undefined, .undefined, .undefined⟩
  | .obj c => some c

/-- `textureOverlay(textureImage, config, pg)` (src lines 285-408): validate,
resolve parameters, run the animation block, then the tiling sweep.  Returns
the draws issued together with the updated private state, or the JS error
that ended the call.  The sweep's draw list is `none` when `fuel` iterations
did not finish it. -/
def textureOverlayOp (ignoreErrors textureIsP5Image : Bool)
    (textureWidth textureHeight : ℚ) (config : ConfigArg)
    (pgDefined pgIsGraphics : Bool) (W H : ℚ) (r1 r2 : ℚ) (s : TOState)
    (fuel : Nat) : Except JsError (Option (List OverlayDraw) × TOState) :=
  match validateTextureOverlay ignoreErrors textureIsP5Image config
      pgDefined pgIsGraphics with
  | some msg => .error (.thrown msg)
  | none =>
    match configView config with
    | none =>
      .error (.typeError "Cannot read properties of undefined (reading mode)")
    | some c =>
      let _reflect := c.reflect.truthy
      let _animate := c.animate.truthy
      let _animateAtFrame : ℤ := match c.animate with
        | .obj atFrame _ => resolveAtFrame atFrame
        | _ => 2
      let _animateAmount : ℚ := match c.animate with
        | .obj _ amount => resolveAmount amount W H
        | _ => min W H
      let tW : ℚ := match c.width with
        | .number q => q
        | _ => textureWidth
      let tH : ℚ := match c.height with
        | .number q => q
        | _ => textureHeight
      let s' := textureOverlayAnimateStep _animate _animateAtFrame
        _animateAmount r1 r2 s
      .ok (textureOverlaySweep W H s'.tX_anchor s'.tY tW tH _reflect fuel, s')

/-- A sequence of `textureOverlay` calls with animation enabled, acting on
the persistent overlay state: each entry carries the call's resolved
`atFrame` and `amount` and its two `random()` values. -/
def runOverlayAnimate : List (ℤ × ℚ × ℚ × ℚ) → TOState → TOState
  | [], s => s
  | (atFrame, amount, r1, r2) :: rest, s =>
    runOverlayAnimate rest (textureOverlayAnimateStep true atFrame amount r1 r2 s)

lemma coversPoint_iff_endpoints (d : OverlayDraw) (x y a b c e : ℚ)
    (hx1 : d.sx * d.ix = a) (hx2 : d.sx * (d.ix + d.iw) = b) (hab : a ≤ b)
    (hy1 : d.sy * d.iy = c) (hy2 : d.sy * (d.iy + d.ih) = e) (hce : c ≤ e) :
    coversPoint d x y ↔ (a ≤ x ∧ x < b ∧ c ≤ y ∧ y < e) := by
  unfold coversPoint coveredX coveredY
  rw [hx1, hx2, hy1, hy2]
  simp [min_eq_left hab, max_eq_right hab, min_eq_left hce, max_eq_right hce]

lemma overlayTileDraw_covers (reflect rf cf : Bool) (tX tY tW tH x y : ℚ)
    (hW : 0 < tW) (hH : 0 < tH) :
    coversPoint (overlayTileDraw reflect rf cf tX tY tW tH) x y ↔
      (tX ≤ x ∧ x < tX + tW ∧ tY ≤ y ∧ y < tY + tH) := by
  cases reflect <;> cases rf <;> cases cf <;>
    refine coversPoint_iff_endpoints _ x y tX (tX + tW) tY (tY + tH) ?_ ?_ ?_ ?_ ?_ ?_ <;>
    (try simp only [overlayTileDraw, Bool.false_eq_true, if_false, if_true]) <;>
    linarith

lemma overlayTileDraw_mirror (rf cf : Bool) (tX tY tW tH : ℚ) :
    horizontallyMirrored (overlayTileDraw true rf cf tX tY tW tH) = !cf ∧
    verticallyMirrored (overlayTileDraw true rf cf tX tY tW tH) = !rf := by
  cases rf <;> cases cf <;>
    refine ⟨?_, ?_⟩ <;>
    simp only [overlayTileDraw, horizontallyMirrored, verticallyMirrored,
      Bool.false_eq_true, if_false, if_true] <;>
    norm_num

lemma overlayTileDraw_pos (reflect rf cf : Bool) (tX tY tW tH : ℚ)
    (hW : 0 < tW) (hH : 0 < tH) :
    tilePos (overlayTileDraw reflect rf cf tX tY tW tH) = (tX, tY) := by
  unfold tilePos coveredX coveredY
  cases reflect <;> cases rf <;> cases cf <;>
    simp only [overlayTileDraw, Bool.false_eq_true, if_false, if_true] <;>
    rw [min_eq_left (by linarith), min_eq_left (by linarith)] <;>
    norm_num

/-! ## Structure of completed rows and grids -/

lemma rowDraws_length (reflect rf : Bool) (tW tH : ℚ) :
    ∀ (n : Nat) (tX tY : ℚ) (cf : Bool),
      (rowDraws reflect rf tW tH n tX tY cf).length = n := by
  intro n
  induction n with
  | zero => intro tX tY cf; simp [rowDraws]
  | succ n ih => intro tX tY cf; simp [rowDraws, ih]

lemma rowDraws_get? (reflect rf : Bool) (tW tH : ℚ) :
    ∀ (n i : Nat), i < n → ∀ (tX tY : ℚ) (cf : Bool),
      (rowDraws reflect rf tW tH n tX tY cf).get? i =
        some (overlayTileDraw reflect rf (if i % 2 = 0 then cf else !cf)
          (tX + (i : ℚ) * tW) tY tW tH) := by
  intro n
  induction n with
  | zero => intro i hi; exact absurd hi (Nat.not_lt_zero i)
  | succ n ih =>
    intro i hi tX tY cf
    cases i with
    | zero => simp [rowDraws]
    | succ j =>
      have hj : j < n := by omega
      have hpar : (if j % 2 = 0 then (!cf) else (!(!cf))) =
          (if (j + 1) % 2 = 0 then cf else !cf) := by
        rcases Nat.mod_two_eq_zero_or_one j with h | h
        · have h2 : (j + 1) % 2 = 1 := by omega
          simp [h, h2]
        · have h2 : (j + 1) % 2 = 0 := by omega
          simp [h, h2]
      have hpos : (tX + tW) + (j : ℚ) * tW = tX + ((j + 1 : Nat) : ℚ) * tW := by
        push_cast
        ring
      rw [rowDraws, List.get?_cons_succ, ih j hj (tX + tW) tY (!cf), hpar, hpos]

lemma gridRows_length (reflect : Bool) (ax tW tH : ℚ) (n : Nat) :
    ∀ (m : Nat) (tY : ℚ) (rf : Bool),
      (gridRows reflect ax tW tH n m tY rf).length = m := by
  intro m
  induction m with
  | zero => intro tY rf; simp [gridRows]
  | succ m ih => intro tY rf; simp [gridRows, ih]

lemma gridRows_get? (reflect : Bool) (ax tW tH : ℚ) (n : Nat) :
    ∀ (m j : Nat), j < m → ∀ (tY : ℚ) (rf : Bool),
      (gridRows reflect ax tW tH n m tY rf).get? j =
        some (rowDraws reflect (if j % 2 = 0 then rf else !rf) tW tH n ax
          (tY + (j : ℚ) * tH) true) := by
  intro m
  induction m with
  | zero => intro j hj; exact absurd hj (Nat.not_lt_zero j)
  | succ m ih =>
    intro j hj tY rf
    cases j with
    | zero => simp [gridRows]
    | succ j =>
      have hj' : j < m := by omega
      have hpar : (if j % 2 = 0 then (!rf) else (!(!rf))) =
          (if (j + 1) % 2 = 0 then rf else !rf) := by
        rcases Nat.mod_two_eq_zero_or_one j with h | h
        · have h2 : (j + 1) % 2 = 1 := by omega
          simp [h, h2]
        · have h2 : (j + 1) % 2 = 0 := by omega
          simp [h, h2]
      have hpos : (tY + tH) + (j : ℚ) * tH = tY + ((j + 1 : Nat) : ℚ) * tH := by
        push_cast
        ring
      rw [gridRows, List.get?_cons_succ, ih j hj' (tY + tH) (!rf), hpar, hpos]

/-! ## Behaviour of the sweep loop -/

/-- With a non-positive tile width the inner while loop never advances: the
sweep runs out of any amount of fuel (the source loop is infinite). -/
lemma sweepAux_stuck (W H ax tW tH : ℚ) (reflect : Bool) (hW : tW ≤ 0) :
    ∀ (fuel : Nat) (tX tY : ℚ) (rf cf : Bool) (acc : List OverlayDraw),
      tX < W → tY < H →
      sweepAux W H ax tW tH reflect fuel tX tY rf cf acc = none := by
  intro fuel
  induction fuel with
  | zero => intro tX tY rf cf acc hx hy; rfl
  | succ fuel ih =>
    intro tX tY rf cf acc hx hy
    simp only [sweepAux]
    rw [if_pos hy, if_pos hx, if_neg (by linarith : ¬ W ≤ tX + tW)]
    exact ih (tX + tW) tY rf (!cf) _ (by linarith) hy

/-- A completed run of the inner while loop: starting at `tX < W` (with the
outer guard `tY < H` holding), the row issues `m ≥ 1` tile draws stepping by
`tW`, consumes `m` units of fuel, and hands control back to the outer loop
at `(ax, tY + tH)` with the row flag flipped and the column flag reset. -/
lemma sweepAux_row (W H ax tW tH : ℚ) (reflect : Bool) (hW : 0 < tW) :
    ∀ (n : Nat) (tX tY : ℚ) (rf cf : Bool),
      tX < W → W ≤ tX + (n : ℚ) * tW → tY < H →
      ∃ m : Nat, 0 < m ∧ W ≤ tX + (m : ℚ) * tW ∧
        (∀ i : Nat, i < m → tX + (i : ℚ) * tW < W) ∧
        ∀ (fuel : Nat) (acc : List OverlayDraw),
          sweepAux W H ax tW tH reflect (fuel + m) tX tY rf cf acc =
            sweepAux W H ax tW tH reflect fuel ax (tY + tH) (!rf) true
              (acc ++ rowDraws reflect rf tW tH m tX tY cf) := by
  intro n
  induction n with
  | zero =>
    intro tX tY rf cf hx hn hy
    exfalso
    push_cast at hn
    linarith
  | succ n ih =>
    intro tX tY rf cf hx hn hy
    by_cases hbr : W ≤ tX + tW
    · refine ⟨1, Nat.one_pos, ?_, ?_, ?_⟩
      · push_cast
        linarith
      · intro i hi
        have hi0 : i = 0 := by omega
        subst hi0
        push_cast
        linarith
      · intro fuel acc
        simp only [sweepAux]
        rw [if_pos hy, if_pos hx, if_pos hbr]
        simp [rowDraws]
    · have hx' : tX + tW < W := lt_of_not_le hbr
      have hn' : W ≤ (tX + tW) + (n : ℚ) * tW := by
        push_cast at hn ⊢
        linarith
      obtain ⟨m, hm0, hmW, hmlt, hmeq⟩ := ih (tX + tW) tY rf (!cf) hx' hn' hy
      refine ⟨m + 1, Nat.succ_pos m, ?_, ?_, ?_⟩
      · push_cast at hmW ⊢
        linarith
      · intro i hi
        cases i with
        | zero =>
          push_cast
          linarith
        | succ j =>
          have hjm := hmlt j (by omega)
          push_cast at hjm ⊢
          linarith
      · intro fuel acc
        show sweepAux W H ax tW tH reflect ((fuel + m) + 1) tX tY rf cf acc = _
        simp only [sweepAux]
        rw [if_pos hy, if_pos hx, if_neg hbr]
        rw [hmeq fuel (acc ++ [overlayTileDraw reflect rf cf tX tY tW tH])]
        rw [rowDraws]
        congr 1
        simp

/-- The column count of a row starting at `tX < W` exists: some `m ≥ 1`
tiles fit before the cursor passes `W`. -/
lemma exists_colCount (W tW : ℚ) (hW : 0 < tW) :
    ∀ (n : Nat) (tX : ℚ), tX < W → W ≤ tX + (n : ℚ) * tW →
      ∃ m : Nat, 0 < m ∧ W ≤ tX + (m : ℚ) * tW ∧
        ∀ i : Nat, i < m → tX + (i : ℚ) * tW < W := by
  intro n
  induction n with
  | zero =>
    intro tX hx hn
    exfalso
    push_cast at hn
    linarith
  | succ n ih =>
    intro tX hx hn
    by_cases hbr : W ≤ tX + tW
    · refine ⟨1, Nat.one_pos, by push_cast; linarith, ?_⟩
      intro i hi
      have hi0 : i = 0 := by omega
      subst hi0
      push_cast
      linarith
    · have hx' : tX + tW < W := lt_of_not_le hbr
      have hn' : W ≤ (tX + tW) + (n : ℚ) * tW := by
        push_cast at hn ⊢
        linarith
      obtain ⟨m, hm0, hmW, hmlt⟩ := ih (tX + tW) hx' hn'
      refine ⟨m + 1, Nat.succ_pos m, by push_cast at hmW ⊢; linarith, ?_⟩
      intro i hi
      cases i with
      | zero =>
        push_cast
        linarith
      | succ j =>
        have hjm := hmlt j (by omega)
        push_cast at hjm ⊢
        linarith

/-- The column count is pinned down by its two characterizing bounds. -/
lemma colCount_unique (W tW tX : ℚ) {m₁ m₂ : Nat}
    (h1W : W ≤ tX + (m₁ : ℚ) * tW)
    (h1lt : ∀ i : Nat, i < m₁ → tX + (i : ℚ) * tW < W)
    (h2W : W ≤ tX + (m₂ : ℚ) * tW)
    (h2lt : ∀ i : Nat, i < m₂ → tX + (i : ℚ) * tW < W) :
    m₁ = m₂ := by
  by_contra hne
  rcases Nat.lt_or_ge m₁ m₂ with h | h
  · have := h2lt m₁ h
    linarith
  · have h' : m₂ < m₁ := by omega
    have := h1lt m₂ h'
    linarith

/-- A completed run of the outer while loop: with the column structure of a
row fixed at `n` tiles, enough fuel completes the sweep and the draws are
exactly the grid of rows. -/
lemma sweepAux_grid (W H ax tW tH : ℚ) (reflect : Bool) (hW : 0 < tW)
    (hH : 0 < tH) (haxW : ax < W) (n : Nat)
    (hnW : W ≤ ax + (n : ℚ) * tW)
    (hnlt : ∀ i : Nat, i < n → ax + (i : ℚ) * tW < W) :
    ∀ (k : Nat) (tY : ℚ) (rf : Bool), H ≤ tY + (k : ℚ) * tH →
      ∃ (m fuel : Nat), H ≤ tY + (m : ℚ) * tH ∧
        (∀ j : Nat, j < m → tY + (j : ℚ) * tH < H) ∧
        ∀ acc : List OverlayDraw,
          sweepAux W H ax tW tH reflect fuel ax tY rf true acc =
            some (acc ++ (gridRows reflect ax tW tH n m tY rf).join) := by
  intro k
  induction k with
  | zero =>
    intro tY rf hk
    push_cast at hk
    refine ⟨0, 1, by push_cast; linarith, ?_, ?_⟩
    · intro j hj
      exact absurd hj (Nat.not_lt_zero j)
    · intro acc
      simp only [sweepAux]
      rw [if_neg (by linarith : ¬ tY < H)]
      simp [gridRows]
  | succ k ih =>
    intro tY rf hk
    by_cases hy : tY < H
    · obtain ⟨mrow, hr0, hrW, hrlt, hreq⟩ :=
        sweepAux_row W H ax tW tH reflect hW n ax tY rf true haxW hnW hy
      have hmn : mrow = n := colCount_unique W tW ax hrW hrlt hnW hnlt
      subst hmn
      have hk' : H ≤ (tY + tH) + (k : ℚ) * tH := by
        push_cast at hk ⊢
        linarith
      obtain ⟨m, fuel, hmH, hmlt, hmeq⟩ := ih (tY + tH) (!rf) hk'
      refine ⟨m + 1, fuel + mrow, ?_, ?_, ?_⟩
      · push_cast at hmH ⊢
        linarith
      · intro j hj
        cases j with
        | zero =>
          push_cast
          linarith
        | succ j =>
          have hjm := hmlt j (by omega)
          push_cast at hjm ⊢
          linarith
      · intro acc
        rw [hreq fuel acc]
        rw [hmeq (acc ++ rowDraws reflect rf tW tH mrow ax tY true)]
        rw [gridRows]
        congr 1
        simp
    · refine ⟨0, 1, by push_cast; linarith [not_lt.mp hy], ?_, ?_⟩
      · intro j hj
        exact absurd hj (Nat.not_lt_zero j)
      · intro acc
        simp only [sweepAux]
        rw [if_neg hy]
        simp [gridRows]

/-- Characterization of a full `textureOverlay` sweep: for positive tile
dimensions and an anchor left of the right edge, some fuel completes the
sweep, and the issued draws are exactly `m` rows of `n` tiles. -/
lemma textureOverlaySweep_eq_grid (W H ax ay tW tH : ℚ) (reflect : Bool)
    (hW : 0 < tW) (hH : 0 < tH) (haxW : ax < W) :
    ∃ (n m fuel : Nat),
      0 < n ∧ W ≤ ax + (n : ℚ) * tW ∧
      (∀ i : Nat, i < n → ax + (i : ℚ) * tW < W) ∧
      H ≤ ay + (m : ℚ) * tH ∧ (∀ j : Nat, j < m → ay + (j : ℚ) * tH < H) ∧
      textureOverlaySweep W H ax ay tW tH reflect fuel =
        some ((gridRows reflect ax tW tH n m ay true).join) := by
  obtain ⟨k0, hk0⟩ := exists_nat_ge ((W - ax) / tW)
  have hkW : W ≤ ax + (k0 : ℚ) * tW := by
    rw [div_le_iff hW] at hk0
    linarith
  obtain ⟨n, hn0, hnW, hnlt⟩ := exists_colCount W tW hW k0 ax haxW hkW
  obtain ⟨k1, hk1⟩ := exists_nat_ge ((H - ay) / tH)
  have hkH : H ≤ ay + (k1 : ℚ) * tH := by
    rw [div_le_iff hH] at hk1
    linarith
  obtain ⟨m, fuel, hmH, hmlt, hmeq⟩ :=
    sweepAux_grid W H ax tW tH reflect hW hH haxW n hnW hnlt k1 ay true hkH
  refine ⟨n, m, fuel, hn0, hnW, hnlt, hmH, hmlt, ?_⟩
  have := hmeq []
  simpa [textureOverlaySweep] using this

/-- Locating the tile interval containing a covered coordinate. -/
lemma exists_bracket (s : ℚ) (hs : 0 < s) :
    ∀ (n : Nat) (a x : ℚ), a ≤ x → x < a + (n : ℚ) * s →
      ∃ i : Nat, i < n ∧ a + (i : ℚ) * s ≤ x ∧ x < a + ((i : ℚ) + 1) * s := by
  intro n
  induction n with
  | zero =>
    intro a x ha hn
    exfalso
    push_cast at hn
    linarith
  | succ n ih =>
    intro a x ha hn
    by_cases hx : x < a + s
    · exact ⟨0, Nat.succ_pos n, by push_cast; linarith, by push_cast; linarith⟩
    · have ha' : a + s ≤ x := le_of_not_lt hx
      have hn' : x < (a + s) + (n : ℚ) * s := by
        push_cast at hn ⊢
        linarith
      obtain ⟨i, hi, h1, h2⟩ := ih (a + s) x ha' hn'
      refine ⟨i + 1, by omega, ?_, ?_⟩
      · push_cast at h1 ⊢
        linarith
      · push_cast at h2 ⊢
        linarith

/-- C1: tiling completeness of the textureOverlay sweep.  For every
destination size, positive tile size and non-positive anchor, every point of
the destination is covered by at least one issued tile draw once the sweep
completes; and the 10×10 destination with a 4×4 tile, `reflect = false` and
anchor `(0, 0)` issues exactly 9 draws at
(0,0),(4,0),(8,0),(0,4),(4,4),(8,4),(0,8),(4,8),(8,8), in that order. -/
theorem claim_C1 :
    (∀ (W H tW tH ax ay : ℚ) (reflect : Bool),
      0 < tW → 0 < tH → ax ≤ 0 → ay ≤ 0 →
      ∀ x y : ℚ, 0 ≤ x → x < W → 0 ≤ y → y < H →
      ∃ (fuel : Nat) (L : List OverlayDraw) (d : OverlayDraw),
        textureOverlaySweep W H ax ay tW tH reflect fuel = some L ∧
        d ∈ L ∧ coversPoint d x y) ∧
    (∃ (fuel : Nat) (L : List OverlayDraw),
      textureOverlaySweep 10 10 0 0 4 4 false fuel = some L ∧
      L.map (fun d => (d.ix, d.iy)) =
        [(0, 0), (4, 0), (8, 0), (0, 4), (4, 4), (8, 4),
         (0, 8), (4, 8), (8, 8)] ∧
      L.length = 9) := by
  constructor
  · intro W H tW tH ax ay reflect hW hH hax hay x y hx0 hxW hy0 hyH
    have haxW : ax < W := lt_of_le_of_lt hax (lt_of_le_of_lt hx0 hxW)
    obtain ⟨n, m, fuel, hn0, hnW, hnlt, hmH, hmlt, heq⟩ :=
      textureOverlaySweep_eq_grid W H ax ay tW tH reflect hW hH haxW
    obtain ⟨i, hin, hix1, hix2⟩ :=
      exists_bracket tW hW n ax x (le_trans hax hx0) (lt_of_lt_of_le hxW hnW)
    obtain ⟨j, hjm, hjy1, hjy2⟩ :=
      exists_bracket tH hH m ay y (le_trans hay hy0) (lt_of_lt_of_le hyH hmH)
    have hrow := gridRows_get? reflect ax tW tH n m j hjm ay true
    have hd := rowDraws_get? reflect (if j % 2 = 0 then true else !true) tW tH
      n i hin ax (ay + (j : ℚ) * tH) true
    refine ⟨fuel, _, _, heq,
      List.mem_join.mpr ⟨_, List.get?_mem hrow, List.get?_mem hd⟩, ?_⟩
    exact (overlayTileDraw_covers _ _ _ _ _ _ _ _ _ hW hH).mpr
      ⟨hix1, by linarith, hjy1, by linarith⟩
  · obtain ⟨n, m, fuel, hn0, hnW, hnlt, hmH, hmlt, heq⟩ :=
      textureOverlaySweep_eq_grid 10 10 0 0 4 4 false (by norm_num)
        (by norm_num) (by norm_num)
    have hn3 : n = 3 := by
      refine colCount_unique 10 4 0 hnW hnlt ?_ ?_
      · push_cast
        norm_num
      · intro i hi
        interval_cases i <;> push_cast <;> norm_num
    have hm3 : m = 3 := by
      refine colCount_unique 10 4 0 hmH hmlt ?_ ?_
      · push_cast
        norm_num
      · intro j hj
        interval_cases j <;> push_cast <;> norm_num
    subst hn3
    subst hm3
    refine ⟨fuel, _, heq, ?_, ?_⟩ <;>
      simp [gridRows, rowDraws, overlayTileDraw] <;> norm_num

/-- C2: the degenerate-dimension guard the specification requires is absent
from the code: a config with `width = 0` passes `#validateArguments` (which
only type-checks it), and with a non-positive tile width the sweep never
terminates (for every amount of fuel it is still running), instead of an
InvalidArgumentValue error being raised before the sweep. -/
theorem claim_C2_divergence :
    (validateTextureOverlay false true
        (ConfigArg.obj ⟨JsPrim.number 0, JsPrim.undefined, JsPrim.undefined,
          JsPrim.undefined, AnimateField.undefined⟩) false false = none) ∧
    (∀ (W H ax ay tW tH : ℚ) (reflect : Bool),
      tW ≤ 0 → ax < W → ay < H →
      ∀ fuel : Nat,
        textureOverlaySweep W H ax ay tW tH reflect fuel = none) := by
  refine ⟨rfl, ?_⟩
  intro W H ax ay tW tH reflect htW haxW hayH fuel
  exact sweepAux_stuck W H ax tW tH reflect htW fuel ax ay true true [] haxW hayH

/-- Witness for C2: the concrete failing input `width = 0` on a 10×10
destination with tile height 4: validation passes and the sweep diverges. -/
theorem claim_C2_witness :
    validateTextureOverlay false true
        (ConfigArg.obj ⟨JsPrim.number 0, JsPrim.undefined, JsPrim.undefined,
          JsPrim.undefined, AnimateField.undefined⟩) false false = none ∧
    textureOverlaySweep 10 10 0 0 0 4 false 100 = none :=
  ⟨claim_C2_divergence.1,
   claim_C2_divergence.2 10 10 0 0 0 4 false (by norm_num) (by norm_num)
     (by norm_num) 100⟩

/-- C3: reflect orientation law.  In every completed `reflect = true` sweep,
the draws form rows; the tile in row `j`, column `i` is exactly the draw the
source issues for the flag pair `(rowIsFirst = even j, colIsFirst = even i)`,
its orientation is (horizontally mirrored iff the column flag is off,
vertically mirrored iff the row flag is off), and consequently horizontally
adjacent tiles in a row differ exactly by a horizontal mirror while
vertically adjacent tiles in a column differ exactly by a vertical
mirror, for every tile count per row and per column. -/
theorem claim_C3 (W H ax ay tW tH : ℚ) (hW : 0 < tW) (hH : 0 < tH)
    (haxW : ax < W) :
    ∃ (n m fuel : Nat) (rows : List (List OverlayDraw)),
      textureOverlaySweep W H ax ay tW tH true fuel = some rows.join ∧
      rows.length = m ∧ (∀ r ∈ rows, r.length = n) ∧
      (∀ j i : Nat, j < m → i < n →
        (rows.get? j).bind (fun r => r.get? i) =
          some (overlayTileDraw true (decide (j % 2 = 0)) (decide (i % 2 = 0))
            (ax + (i : ℚ) * tW) (ay + (j : ℚ) * tH) tW tH) ∧
        ∀ d : OverlayDraw,
          (rows.get? j).bind (fun r => r.get? i) = some d →
          tilePos d = (ax + (i : ℚ) * tW, ay + (j : ℚ) * tH) ∧
          horizontallyMirrored d = !(decide (i % 2 = 0)) ∧
          verticallyMirrored d = !(decide (j % 2 = 0))) ∧
      (∀ (j i : Nat) (d d' : OverlayDraw), j < m → i + 1 < n →
        (rows.get? j).bind (fun r => r.get? i) = some d →
        (rows.get? j).bind (fun r => r.get? (i + 1)) = some d' →
        horizontallyMirrored d' = !(horizontallyMirrored d) ∧
        verticallyMirrored d' = verticallyMirrored d) ∧
      (∀ (j i : Nat) (d d' : OverlayDraw), j + 1 < m → i < n →
        (rows.get? j).bind (fun r => r.get? i) = some d →
        (rows.get? (j + 1)).bind (fun r => r.get? i) = some d' →
        verticallyMirrored d' = !(verticallyMirrored d) ∧
        horizontallyMirrored d' = horizontallyMirrored d) := by
  obtain ⟨n, m, fuel, hn0, hnW, hnlt, hmH, hmlt, heq⟩ :=
    textureOverlaySweep_eq_grid W H ax ay tW tH true hW hH haxW
  refine ⟨n, m, fuel, gridRows true ax tW tH n m ay true, heq,
    gridRows_length true ax tW tH n m ay true, ?_, ?_, ?_, ?_⟩
  · intro r hr
    obtain ⟨j, hj⟩ := List.mem_iff_get?.mp hr
    have hjm : j < m := by
      have := List.get?_eq_some.mp hj
      obtain ⟨hlen, -⟩ := this
      rwa [gridRows_length] at hlen
    rw [gridRows_get? true ax tW tH n m j hjm ay true] at hj
    cases hj
    exact rowDraws_length _ _ tW tH n ax _ true
  all_goals
    have key : ∀ j i : Nat, j < m → i < n →
        ((gridRows true ax tW tH n m ay true).get? j).bind
            (fun r => r.get? i) =
          some (overlayTileDraw true (decide (j % 2 = 0)) (decide (i % 2 = 0))
            (ax + (i : ℚ) * tW) (ay + (j : ℚ) * tH) tW tH) := by
      intro j i hjm hin
      rw [gridRows_get? true ax tW tH n m j hjm ay true, Option.some_bind]
      rw [rowDraws_get? true _ tW tH n i hin ax _ true]
      rcases Nat.mod_two_eq_zero_or_one j with hj | hj <;>
        rcases Nat.mod_two_eq_zero_or_one i with hi | hi <;>
        simp [hj, hi]
  · intro j i hjm hin
    refine ⟨key j i hjm hin, ?_⟩
    intro d hd
    rw [key j i hjm hin] at hd
    cases hd
    refine ⟨overlayTileDraw_pos _ _ _ _ _ _ _ hW hH, ?_, ?_⟩
    · exact (overlayTileDraw_mirror _ _ _ _ _ _).1
    · exact (overlayTileDraw_mirror _ _ _ _ _ _).2
  · intro j i d d' hjm hin hd hd'
    rw [key j i hjm (by omega)] at hd
    rw [key j (i + 1) hjm hin] at hd'
    cases hd
    cases hd'
    rw [(overlayTileDraw_mirror _ _ _ _ _ _).1,
        (overlayTileDraw_mirror _ _ _ _ _ _).1,
        (overlayTileDraw_mirror _ _ _ _ _ _).2,
        (overlayTileDraw_mirror _ _ _ _ _ _).2]
    constructor
    · rcases Nat.mod_two_eq_zero_or_one i with hi | hi
      · have h2 : (i + 1) % 2 = 1 := by omega
        simp [hi, h2]
      · have h2 : (i + 1) % 2 = 0 := by omega
        simp [hi, h2]
    · rfl
  · intro j i d d' hjm hin hd hd'
    rw [key j i (by omega) hin] at hd
    rw [key (j + 1) i hjm hin] at hd'
    cases hd
    cases hd'
    rw [(overlayTileDraw_mirror _ _ _ _ _ _).1,
        (overlayTileDraw_mirror _ _ _ _ _ _).1,
        (overlayTileDraw_mirror _ _ _ _ _ _).2,
        (overlayTileDraw_mirror _ _ _ _ _ _).2]
    constructor
    · rcases Nat.mod_two_eq_zero_or_one j with hj | hj
      · have h2 : (j + 1) % 2 = 1 := by omega
        simp [hj, h2]
      · have h2 : (j + 1) % 2 = 0 := by omega
        simp [hj, h2]
    · rfl

/-- Witness for C3: instantiated at a 10×10 destination, 4×4 tile and
anchor `(0, 0)`. -/
theorem claim_C3_witness :
    ∃ (n m fuel : Nat) (rows : List (List OverlayDraw)),
      textureOverlaySweep 10 10 0 0 4 4 true fuel = some rows.join ∧
      rows.length = m ∧ (∀ r ∈ rows, r.length = n) ∧
      (∀ j i : Nat, j < m → i < n →
        (rows.get? j).bind (fun r => r.get? i) =
          some (overlayTileDraw true (decide (j % 2 = 0)) (decide (i % 2 = 0))
            ((0 : ℚ) + (i : ℚ) * 4) ((0 : ℚ) + (j : ℚ) * 4) 4 4) ∧
        ∀ d : OverlayDraw,
          (rows.get? j).bind (fun r => r.get? i) = some d →
          tilePos d = ((0 : ℚ) + (i : ℚ) * 4, (0 : ℚ) + (j : ℚ) * 4) ∧
          horizontallyMirrored d = !(decide (i % 2 = 0)) ∧
          verticallyMirrored d = !(decide (j % 2 = 0))) ∧
      (∀ (j i : Nat) (d d' : OverlayDraw), j < m → i + 1 < n →
        (rows.get? j).bind (fun r => r.get? i) = some d →
        (rows.get? j).bind (fun r => r.get? (i + 1)) = some d' →
        horizontallyMirrored d' = !(horizontallyMirrored d) ∧
        verticallyMirrored d' = verticallyMirrored d) ∧
      (∀ (j i : Nat) (d d' : OverlayDraw), j + 1 < m → i < n →
        (rows.get? j).bind (fun r => r.get? i) = some d →
        (rows.get? (j + 1)).bind (fun r => r.get? i) = some d' →
        verticallyMirrored d' = !(verticallyMirrored d) ∧
        horizontallyMirrored d' = horizontallyMirrored d) :=
  claim_C3 10 10 0 0 4 4 (by norm_num) (by norm_num) (by norm_num)

/-- C4: animation cadence.  For `textureAnimate` and for `textureOverlay`
with animate enabled, the background offset (respectively the stored anchor
pair) changes only on calls where the frame counter, after its increment,
reaches or exceeds `atFrame`; on every other call the offset/anchor is
exactly its previous value and the counter just advances by 1; and whenever
the offset/anchor is redrawn the counter is reset to 0 in that same call. -/
theorem claim_C4 :
    (∀ (atFrame : ℤ) (amount : ℚ) (r1 r2 : ℚ) (s : TextureAnimateModel),
      (s.frameCount + 1 < atFrame →
        textureAnimateCall atFrame amount r1 r2 s =
          { s with frameCount := s.frameCount + 1 }) ∧
      (s.frameCount + 1 ≥ atFrame →
        textureAnimateCall atFrame amount r1 r2 s =
          { frameCount := 0, bgPos := (⌊r1 * amount⌋, ⌊r2 * amount⌋) }) ∧
      ((textureAnimateCall atFrame amount r1 r2 s).bgPos ≠ s.bgPos →
        s.frameCount + 1 ≥ atFrame ∧
        (textureAnimateCall atFrame amount r1 r2 s).frameCount = 0)) ∧
    (∀ (animate : Bool) (atFrame : ℤ) (amount : ℚ) (r1 r2 : ℚ) (s : TOState),
      (animate = false →
        textureOverlayAnimateStep animate atFrame amount r1 r2 s = s) ∧
      (animate = true → s.frameCount + 1 < atFrame →
        textureOverlayAnimateStep animate atFrame amount r1 r2 s =
          { s with frameCount := s.frameCount + 1 }) ∧
      (animate = true → s.frameCount + 1 ≥ atFrame →
        textureOverlayAnimateStep animate atFrame amount r1 r2 s =
          { s with
              frameCount := 0
              tX_anchor := -((⌊r1 * amount⌋ : ℤ) : ℚ)
              tY := -((⌊r2 * amount⌋ : ℤ) : ℚ) }) ∧
      (((textureOverlayAnimateStep animate atFrame amount r1 r2 s).tX_anchor,
          (textureOverlayAnimateStep animate atFrame amount r1 r2 s).tY) ≠
            (s.tX_anchor, s.tY) →
        animate = true ∧ s.frameCount + 1 ≥ atFrame ∧
        (textureOverlayAnimateStep animate atFrame amount r1 r2 s).frameCount
          = 0)) := by
  constructor
  · intro atFrame amount r1 r2 s
    refine ⟨?_, ?_, ?_⟩
    · intro h
      unfold textureAnimateCall
      rw [if_neg (by omega : ¬ s.frameCount + 1 ≥ atFrame)]
    · intro h
      unfold textureAnimateCall
      rw [if_pos h]
    · intro hne
      by_cases h : s.frameCount + 1 ≥ atFrame
      · refine ⟨h, ?_⟩
        unfold textureAnimateCall
        rw [if_pos h]
      · exfalso
        apply hne
        unfold textureAnimateCall
        rw [if_neg h]
  · intro animate atFrame amount r1 r2 s
    refine ⟨?_, ?_, ?_, ?_⟩
    · intro h
      unfold textureOverlayAnimateStep
      rw [h]
      simp
    · intro h1 h2
      unfold textureOverlayAnimateStep
      rw [h1]
      simp only [if_true]
      rw [if_neg (by omega : ¬ s.frameCount + 1 ≥ atFrame)]
    · intro h1 h2
      unfold textureOverlayAnimateStep
      rw [h1]
      simp only [if_true]
      rw [if_pos h2]
    · intro hne
      by_cases h1 : animate = true
      · by_cases h2 : s.frameCount + 1 ≥ atFrame
        · refine ⟨h1, h2, ?_⟩
          unfold textureOverlayAnimateStep
          rw [h1]
          simp only [if_true]
          rw [if_pos h2]
        · exfalso
          apply hne
          unfold textureOverlayAnimateStep
          rw [h1]
          simp only [if_true]
          rw [if_neg h2]
      · exfalso
        apply hne
        unfold textureOverlayAnimateStep
        rw [Bool.not_eq_true animate] at h1
        rw [h1]
        simp

/-- The anchor-sign invariant is preserved by every animation-enabled call
whose resolved amount is positive and whose random draws lie in `[0, 1)`. -/
lemma runOverlayAnimate_nonpos :
    ∀ (calls : List (ℤ × ℚ × ℚ × ℚ)) (s : TOState),
      (∀ c ∈ calls, 0 < c.2.1 ∧ 0 ≤ c.2.2.1 ∧ c.2.2.1 < 1 ∧
        0 ≤ c.2.2.2 ∧ c.2.2.2 < 1) →
      s.tX_anchor ≤ 0 → s.tY ≤ 0 →
      (runOverlayAnimate calls s).tX_anchor ≤ 0 ∧
        (runOverlayAnimate calls s).tY ≤ 0 := by
  intro calls
  induction calls with
  | nil =>
    intro s hc hx hy
    exact ⟨hx, hy⟩
  | cons c rest ih =>
    obtain ⟨atFrame, amount, r1, r2⟩ := c
    intro s hc hx hy
    obtain ⟨ham, hr1a, hr1b, hr2a, hr2b⟩ := hc _ (List.mem_cons_self _ _)
    rw [runOverlayAnimate]
    refine ih _ (fun c hmem => hc c (List.mem_cons_of_mem _ hmem)) ?_ ?_
    · unfold textureOverlayAnimateStep
      simp only [if_true]
      by_cases h : s.frameCount + 1 ≥ atFrame
      · rw [if_pos h]
        have hfl : (0 : ℤ) ≤ ⌊r1 * amount⌋ :=
          Int.floor_nonneg.mpr (mul_nonneg hr1a (le_of_lt ham))
        simp only
        rw [neg_nonpos]
        exact_mod_cast hfl
      · rw [if_neg h]
        exact hx
    · unfold textureOverlayAnimateStep
      simp only [if_true]
      by_cases h : s.frameCount + 1 ≥ atFrame
      · rw [if_pos h]
        have hfl : (0 : ℤ) ≤ ⌊r2 * amount⌋ :=
          Int.floor_nonneg.mpr (mul_nonneg hr2a (le_of_lt ham))
        simp only
        rw [neg_nonpos]
        exact_mod_cast hfl
      · rw [if_neg h]
        exact hy

/-- C5: anchor sign invariant.  Starting from the initial state
`(anchorX, anchorY) = (0, 0)`, after any sequence of animation-enabled
`textureOverlay` calls with positive resolved amounts and `random()` values
in `[0, 1)`, the stored anchors `tX_anchor` and `tY` are `≤ 0`. -/
theorem claim_C5 (calls : List (ℤ × ℚ × ℚ × ℚ))
    (hcalls : ∀ c ∈ calls, 0 < c.2.1 ∧ 0 ≤ c.2.2.1 ∧ c.2.2.1 < 1 ∧
      0 ≤ c.2.2.2 ∧ c.2.2.2 < 1) :
    (runOverlayAnimate calls initialTOState).tX_anchor ≤ 0 ∧
    (runOverlayAnimate calls initialTOState).tY ≤ 0 :=
  runOverlayAnimate_nonpos calls initialTOState hcalls le_rfl le_rfl

/-- Witness for C5: two concrete calls at `atFrame = 2`, amount `5`. -/
theorem claim_C5_witness :
    (runOverlayAnimate [(2, 5, 1/2, 1/3), (2, 5, 2/3, 3/4)]
      initialTOState).tX_anchor ≤ 0 ∧
    (runOverlayAnimate [(2, 5, 1/2, 1/3), (2, 5, 2/3, 3/4)]
      initialTOState).tY ≤ 0 :=
  claim_C5 [(2, 5, 1/2, 1/3), (2, 5, 2/3, 3/4)] (by
    intro c hc
    rcases List.mem_cons.mp hc with h | h
    · subst h
      norm_num
    · rw [List.mem_singleton] at h
      subst h
      norm_num)

/-! ## Behaviour of the granulate loops -/

lemma granulateSimpleLoop_untouched (rs : Nat → ℚ) (amount : ℚ) (alpha : Bool)
    (px : Nat → ℤ) :
    ∀ (k j : Nat), 4 * k ≤ j →
      granulateSimpleLoop rs amount alpha px k j = px j := by
  intro k
  induction k with
  | zero => intro j hj; rfl
  | succ k ih =>
    intro j hj
    rw [granulateSimpleLoop]
    unfold granulateSimpleStep
    rw [if_neg (by omega), if_neg (by omega), if_neg (by omega),
      if_neg (by omega)]
    exact ih j (by omega)

lemma granulateSimpleLoop_value (rs : Nat → ℚ) (amount : ℚ) (alpha : Bool)
    (px : Nat → ℤ) :
    ∀ (k p c : Nat), p < k → c < 4 →
      granulateSimpleLoop rs amount alpha px k (4 * p + c) =
        (if c < 3 then px (4 * p + c) + granulateDelta amount (rs p)
         else if alpha then px (4 * p + c) + granulateDelta amount (rs p)
         else px (4 * p + c)) := by
  intro k
  induction k with
  | zero => intro p c hp hc; exact absurd hp (Nat.not_lt_zero p)
  | succ k ih =>
    intro p c hp hc
    rw [granulateSimpleLoop]
    by_cases hpk : p = k
    · subst hpk
      unfold granulateSimpleStep
      interval_cases c
      · rw [if_pos (by omega : 4 * p + 0 = 4 * p)]
        rw [granulateSimpleLoop_untouched rs amount alpha px p _ (by omega)]
        norm_num
      · rw [if_neg (by omega), if_pos (by omega : 4 * p + 1 = 4 * p + 1)]
        rw [granulateSimpleLoop_untouched rs amount alpha px p _ (by omega)]
        norm_num
      · rw [if_neg (by omega), if_neg (by omega),
          if_pos (by omega : 4 * p + 2 = 4 * p + 2)]
        rw [granulateSimpleLoop_untouched rs amount alpha px p _ (by omega)]
        norm_num
      · rw [if_neg (by omega), if_neg (by omega), if_neg (by omega),
          if_pos (by omega : 4 * p + 3 = 4 * p + 3)]
        rw [granulateSimpleLoop_untouched rs amount alpha px p _ (by omega)]
        norm_num
    · unfold granulateSimpleStep
      rw [if_neg (by omega), if_neg (by omega), if_neg (by omega),
        if_neg (by omega)]
      exact ih p c (by omega) hc

lemma granulateChannelsLoop_untouched (rs : Nat → ℚ) (amount : ℚ)
    (alpha : Bool) (px : Nat → ℤ) :
    ∀ (k j : Nat), 4 * k ≤ j →
      granulateChannelsLoop rs amount alpha px k j = px j := by
  intro k
  induction k with
  | zero => intro j hj; rfl
  | succ k ih =>
    intro j hj
    rw [granulateChannelsLoop]
    unfold granulateChannelsStep
    rw [if_neg (by omega), if_neg (by omega), if_neg (by omega),
      if_neg (by omega)]
    exact ih j (by omega)

lemma granulateChannelsLoop_value (rs : Nat → ℚ) (amount : ℚ) (alpha : Bool)
    (px : Nat → ℤ) :
    ∀ (k p c : Nat), p < k → c < 4 →
      granulateChannelsLoop rs amount alpha px k (4 * p + c) =
        (if c < 3 then
          px (4 * p + c) +
            granulateDelta amount (rs (channelsDrawCount alpha * p + c))
         else if alpha then
          px (4 * p + c) +
            granulateDelta amount (rs (channelsDrawCount alpha * p + 3))
         else px (4 * p + c)) := by
  intro k
  induction k with
  | zero => intro p c hp hc; exact absurd hp (Nat.not_lt_zero p)
  | succ k ih =>
    intro p c hp hc
    rw [granulateChannelsLoop]
    by_cases hpk : p = k
    · subst hpk
      unfold granulateChannelsStep
      interval_cases c
      · rw [if_pos (by omega : 4 * p + 0 = 4 * p)]
        rw [granulateChannelsLoop_untouched rs amount alpha px p _ (by omega)]
        norm_num
      · rw [if_neg (by omega), if_pos (by omega : 4 * p + 1 = 4 * p + 1)]
        rw [granulateChannelsLoop_untouched rs amount alpha px p _ (by omega)]
        norm_num
      · rw [if_neg (by omega), if_neg (by omega),
          if_pos (by omega : 4 * p + 2 = 4 * p + 2)]
        rw [granulateChannelsLoop_untouched rs amount alpha px p _ (by omega)]
        norm_num
      · rw [if_neg (by omega), if_neg (by omega), if_neg (by omega),
          if_pos (by omega : 4 * p + 3 = 4 * p + 3)]
        rw [granulateChannelsLoop_untouched rs amount alpha px p _ (by omega)]
        norm_num
    · unfold granulateChannelsStep
      rw [if_neg (by omega), if_neg (by omega), if_neg (by omega),
        if_neg (by omega)]
      exact ih p c (by omega) hc

/-! ## Range of the grain delta -/

/-- Closed form of the grain delta: with `a = round(amount)`, the draw is
`⌊r * (2a + 1)⌋ - a` (directly from the `#randomIntInclusive` formula). -/
lemma granulateDelta_eq (amount r : ℚ) :
    granulateDelta amount r =
      ⌊r * (2 * ((round amount : ℤ) : ℚ) + 1)⌋ + (-(round amount)) := by
  unfold granulateDelta randomIntInclusive
  have hmn : ⌈-((round amount : ℤ) : ℚ)⌉ = -(round amount) := by
    rw [show -((round amount : ℤ) : ℚ) = (((-(round amount)) : ℤ) : ℚ) by
      push_cast
      ring]
    exact Int.ceil_intCast _
  have hmx : ⌊((round amount : ℤ) : ℚ)⌋ = round amount := Int.floor_intCast _
  rw [hmn, hmx]
  simp only []
  rw [show (((round amount : ℤ) : ℚ) - (((-(round amount)) : ℤ) : ℚ) + 1) =
      2 * ((round amount : ℤ) : ℚ) + 1 by
    push_cast
    ring]
  rw [Int.floor_add_int]

/-- For a non-negative rounded amount `a`, every draw lies in `[-a, a]`. -/
lemma granulateDelta_range_nonneg (amount r : ℚ) (ha : 0 ≤ round amount)
    (hr0 : 0 ≤ r) (hr1 : r < 1) :
    -(round amount) ≤ granulateDelta amount r ∧
      granulateDelta amount r ≤ round amount := by
  rw [granulateDelta_eq]
  have haq : (0 : ℚ) ≤ ((round amount : ℤ) : ℚ) := by exact_mod_cast ha
  have hM : (0 : ℚ) < 2 * ((round amount : ℤ) : ℚ) + 1 := by linarith
  constructor
  · have h0 : (0 : ℤ) ≤ ⌊r * (2 * ((round amount : ℤ) : ℚ) + 1)⌋ :=
      Int.floor_nonneg.mpr (mul_nonneg hr0 (le_of_lt hM))
    omega
  · have hlt : r * (2 * ((round amount : ℤ) : ℚ) + 1) <
        2 * ((round amount : ℤ) : ℚ) + 1 := by
      nlinarith
    have hfl : ⌊r * (2 * ((round amount : ℤ) : ℚ) + 1)⌋ <
        2 * round amount + 1 := by
      apply Int.floor_lt.mpr
      push_cast
      linarith
    omega

/-- For a negative rounded amount `a`, every draw lies in the asymmetric
range `[a + 1, -a]`. -/
lemma granulateDelta_range_neg (amount r : ℚ) (ha : round amount < 0)
    (hr0 : 0 ≤ r) (hr1 : r < 1) :
    round amount + 1 ≤ granulateDelta amount r ∧
      granulateDelta amount r ≤ -(round amount) := by
  rw [granulateDelta_eq]
  have haz : round amount ≤ -1 := by omega
  have haq : ((round amount : ℤ) : ℚ) ≤ -1 := by exact_mod_cast haz
  have hM : 2 * ((round amount : ℤ) : ℚ) + 1 < 0 := by linarith
  constructor
  · have hgt : 2 * ((round amount : ℤ) : ℚ) + 1 <
        r * (2 * ((round amount : ℤ) : ℚ) + 1) := by
      nlinarith
    have hfl : 2 * round amount + 1 ≤
        ⌊r * (2 * ((round amount : ℤ) : ℚ) + 1)⌋ := by
      apply Int.le_floor.mpr
      push_cast
      linarith
    omega
  · have hle : r * (2 * ((round amount : ℤ) : ℚ) + 1) ≤ 0 := by
      nlinarith
    have hfl : ⌊r * (2 * ((round amount : ℤ) : ℚ) + 1)⌋ ≤ 0 := by
      have h1 := Int.floor_le_floor (α := ℚ) hle
      rwa [Int.floor_zero] at h1
    omega

lemma granulateTotalSamples_div4 (mainWidth mainHeight mainDensity : Nat)
    (pg : Option GraphicsBuffer) :
    4 * (granulateTotalSamples mainWidth mainHeight mainDensity pg / 4) =
      granulateTotalSamples mainWidth mainHeight mainDensity pg := by
  unfold granulateTotalSamples
  cases pg <;>
    simp only [] <;>
    rw [mul_assoc, Nat.mul_div_cancel_left _ (by norm_num : 0 < 4)]

lemma round_nonneg_of (q : ℚ) (h : 0 ≤ q) : 0 ≤ round q := by
  rw [round_eq]
  exact Int.floor_nonneg.mpr (by linarith)

/-- C7: grain delta law (amount interpreted after the source's rounding,
`a = round(amount) ≥ 0`).  `granulateSimple` adds one draw `g` identically
to R, G and B of a pixel (and to A exactly when the alpha flag is set),
`granulateChannels` adds a separately drawn value per channel, and every
applied delta lies in the closed integer range `[-a, a]`. -/
theorem claim_C7 (amount : ℚ) (alphaArg : Option Bool)
    (mainWidth mainHeight mainDensity : Nat) (pg : Option GraphicsBuffer)
    (rs : Nat → ℚ) (px : Nat → ℤ) (p : Nat)
    (hamount : 0 ≤ amount)
    (hrs : ∀ idx : Nat, 0 ≤ rs idx ∧ rs idx < 1)
    (hp : 4 * p + 3 <
      granulateTotalSamples mainWidth mainHeight mainDensity pg) :
    (granulateSimpleOp amount alphaArg mainWidth mainHeight mainDensity pg
        rs px (4 * p) = px (4 * p) + granulateDelta amount (rs p) ∧
      granulateSimpleOp amount alphaArg mainWidth mainHeight mainDensity pg
        rs px (4 * p + 1) = px (4 * p + 1) + granulateDelta amount (rs p) ∧
      granulateSimpleOp amount alphaArg mainWidth mainHeight mainDensity pg
        rs px (4 * p + 2) = px (4 * p + 2) + granulateDelta amount (rs p) ∧
      (resolveAlpha alphaArg = true →
        granulateSimpleOp amount alphaArg mainWidth mainHeight mainDensity pg
          rs px (4 * p + 3) = px (4 * p + 3) + granulateDelta amount (rs p)) ∧
      (-(round amount) ≤ granulateDelta amount (rs p) ∧
        granulateDelta amount (rs p) ≤ round amount)) ∧
    (∀ c : Nat, c < 4 →
      (c < 3 →
        granulateChannelsOp amount alphaArg mainWidth mainHeight mainDensity
            pg rs px (4 * p + c) =
          px (4 * p + c) + granulateDelta amount
            (rs (channelsDrawCount (resolveAlpha alphaArg) * p + c))) ∧
      (c = 3 → resolveAlpha alphaArg = true →
        granulateChannelsOp amount alphaArg mainWidth mainHeight mainDensity
            pg rs px (4 * p + 3) =
          px (4 * p + 3) + granulateDelta amount
            (rs (channelsDrawCount (resolveAlpha alphaArg) * p + 3))) ∧
      (-(round amount) ≤ granulateDelta amount
          (rs (channelsDrawCount (resolveAlpha alphaArg) * p + c)) ∧
        granulateDelta amount
          (rs (channelsDrawCount (resolveAlpha alphaArg) * p + c)) ≤
          round amount)) := by
  have hround := round_nonneg_of amount hamount
  have hdiv := granulateTotalSamples_div4 mainWidth mainHeight mainDensity pg
  have hplt : p <
      granulateTotalSamples mainWidth mainHeight mainDensity pg / 4 := by
    omega
  obtain ⟨hr0, hr1⟩ := hrs p
  constructor
  · refine ⟨?_, ?_, ?_, ?_, ?_⟩
    · have h := granulateSimpleLoop_value rs amount (resolveAlpha alphaArg)
        px _ p 0 hplt (by norm_num)
      simpa [granulateSimpleOp] using h
    · have h := granulateSimpleLoop_value rs amount (resolveAlpha alphaArg)
        px _ p 1 hplt (by norm_num)
      simpa [granulateSimpleOp] using h
    · have h := granulateSimpleLoop_value rs amount (resolveAlpha alphaArg)
        px _ p 2 hplt (by norm_num)
      simpa [granulateSimpleOp] using h
    · intro halpha
      have h := granulateSimpleLoop_value rs amount (resolveAlpha alphaArg)
        px _ p 3 hplt (by norm_num)
      rw [if_neg (by norm_num : ¬ (3 : Nat) < 3), if_pos halpha] at h
      simpa [granulateSimpleOp] using h
    · exact granulateDelta_range_nonneg amount (rs p) hround hr0 hr1
  · intro c hc
    refine ⟨?_, ?_, ?_⟩
    · intro hc3
      have h := granulateChannelsLoop_value rs amount (resolveAlpha alphaArg)
        px _ p c hplt hc
      rw [if_pos hc3] at h
      simpa [granulateChannelsOp] using h
    · intro hc3 halpha
      have h := granulateChannelsLoop_value rs amount (resolveAlpha alphaArg)
        px _ p 3 hplt (by norm_num)
      rw [if_neg (by norm_num : ¬ (3 : Nat) < 3), if_pos halpha] at h
      simpa [granulateChannelsOp] using h
    · obtain ⟨hc0, hc1⟩ :=
        hrs (channelsDrawCount (resolveAlpha alphaArg) * p + c)
      exact granulateDelta_range_nonneg amount _ hround hc0 hc1

/-- Witness for C7: amount 2, alpha omitted, 1×1 main canvas at density 1,
default target, constant random stream 1/2, zero buffer, pixel 0. -/
theorem claim_C7_witness :
    (granulateSimpleOp 2 none 1 1 1 none (fun _ => 1/2) (fun _ => 0)
        (4 * 0) = (fun _ => (0 : ℤ)) (4 * 0) +
          granulateDelta 2 ((fun _ => (1/2 : ℚ)) 0) ∧
      granulateSimpleOp 2 none 1 1 1 none (fun _ => 1/2) (fun _ => 0)
        (4 * 0 + 1) = (fun _ => (0 : ℤ)) (4 * 0 + 1) +
          granulateDelta 2 ((fun _ => (1/2 : ℚ)) 0) ∧
      granulateSimpleOp 2 none 1 1 1 none (fun _ => 1/2) (fun _ => 0)
        (4 * 0 + 2) = (fun _ => (0 : ℤ)) (4 * 0 + 2) +
          granulateDelta 2 ((fun _ => (1/2 : ℚ)) 0) ∧
      (resolveAlpha none = true →
        granulateSimpleOp 2 none 1 1 1 none (fun _ => 1/2) (fun _ => 0)
          (4 * 0 + 3) = (fun _ => (0 : ℤ)) (4 * 0 + 3) +
            granulateDelta 2 ((fun _ => (1/2 : ℚ)) 0)) ∧
      (-(round (2 : ℚ)) ≤ granulateDelta 2 ((fun _ => (1/2 : ℚ)) 0) ∧
        granulateDelta 2 ((fun _ => (1/2 : ℚ)) 0) ≤ round (2 : ℚ))) ∧
    (∀ c : Nat, c < 4 →
      (c < 3 →
        granulateChannelsOp 2 none 1 1 1 none (fun _ => 1/2) (fun _ => 0)
            (4 * 0 + c) =
          (fun _ => (0 : ℤ)) (4 * 0 + c) + granulateDelta 2
            ((fun _ => (1/2 : ℚ)) (channelsDrawCount (resolveAlpha none) * 0 + c))) ∧
      (c = 3 → resolveAlpha none = true →
        granulateChannelsOp 2 none 1 1 1 none (fun _ => 1/2) (fun _ => 0)
            (4 * 0 + 3) =
          (fun _ => (0 : ℤ)) (4 * 0 + 3) + granulateDelta 2
            ((fun _ => (1/2 : ℚ)) (channelsDrawCount (resolveAlpha none) * 0 + 3))) ∧
      (-(round (2 : ℚ)) ≤ granulateDelta 2
          ((fun _ => (1/2 : ℚ)) (channelsDrawCount (resolveAlpha none) * 0 + c)) ∧
        granulateDelta 2
          ((fun _ => (1/2 : ℚ)) (channelsDrawCount (resolveAlpha none) * 0 + c)) ≤
          round (2 : ℚ))) :=
  claim_C7 2 none 1 1 1 none (fun _ => 1/2) (fun _ => 0) 0 (by norm_num)
    (fun idx => ⟨by norm_num, by norm_num⟩) (by norm_num [granulateTotalSamples])

/-- C8: alpha frame condition.  With the alpha flag false or omitted, the
alpha sample (index `i + 3`) of every pixel is unchanged by either
granulate pass; with it true, the alpha sample of every iterated pixel
receives a grain delta. -/
theorem claim_C8 (amount : ℚ) (alphaArg : Option Bool)
    (mainWidth mainHeight mainDensity : Nat) (pg : Option GraphicsBuffer)
    (rs : Nat → ℚ) (px : Nat → ℤ) :
    (resolveAlpha alphaArg = false →
      ∀ j : Nat, j % 4 = 3 →
        granulateSimpleOp amount alphaArg mainWidth mainHeight mainDensity pg
          rs px j = px j ∧
        granulateChannelsOp amount alphaArg mainWidth mainHeight mainDensity
          pg rs px j = px j) ∧
    (resolveAlpha alphaArg = true →
      ∀ p : Nat,
        4 * p + 3 < granulateTotalSamples mainWidth mainHeight mainDensity pg →
        granulateSimpleOp amount alphaArg mainWidth mainHeight mainDensity pg
            rs px (4 * p + 3) =
          px (4 * p + 3) + granulateDelta amount (rs p) ∧
        granulateChannelsOp amount alphaArg mainWidth mainHeight mainDensity
            pg rs px (4 * p + 3) =
          px (4 * p + 3) + granulateDelta amount
            (rs (channelsDrawCount (resolveAlpha alphaArg) * p + 3))) := by
  have hdiv := granulateTotalSamples_div4 mainWidth mainHeight mainDensity pg
  constructor
  · intro hfalse j hj
    by_cases hjQ :
        4 * (granulateTotalSamples mainWidth mainHeight mainDensity pg / 4) ≤ j
    · constructor
      · simpa [granulateSimpleOp] using
          granulateSimpleLoop_untouched rs amount (resolveAlpha alphaArg) px
            _ j hjQ
      · simpa [granulateChannelsOp] using
          granulateChannelsLoop_untouched rs amount (resolveAlpha alphaArg) px
            _ j hjQ
    · have hple : j / 4 <
          granulateTotalSamples mainWidth mainHeight mainDensity pg / 4 := by
        omega
      have hjeq : j = 4 * (j / 4) + 3 := by omega
      constructor
      · have h := granulateSimpleLoop_value rs amount (resolveAlpha alphaArg)
          px _ (j / 4) 3 hple (by norm_num)
        rw [if_neg (by norm_num : ¬ (3 : Nat) < 3),
          if_neg (by simp [hfalse] : ¬ resolveAlpha alphaArg = true)] at h
        rw [hjeq]
        simpa [granulateSimpleOp] using h
      · have h := granulateChannelsLoop_value rs amount (resolveAlpha alphaArg)
          px _ (j / 4) 3 hple (by norm_num)
        rw [if_neg (by norm_num : ¬ (3 : Nat) < 3),
          if_neg (by simp [hfalse] : ¬ resolveAlpha alphaArg = true)] at h
        rw [hjeq]
        simpa [granulateChannelsOp] using h
  · intro htrue p hp
    have hple : p <
        granulateTotalSamples mainWidth mainHeight mainDensity pg / 4 := by
      omega
    constructor
    · have h := granulateSimpleLoop_value rs amount (resolveAlpha alphaArg)
        px _ p 3 hple (by norm_num)
      rw [if_neg (by norm_num : ¬ (3 : Nat) < 3), if_pos htrue] at h
      simpa [granulateSimpleOp] using h
    · have h := granulateChannelsLoop_value rs amount (resolveAlpha alphaArg)
        px _ p 3 hple (by norm_num)
      rw [if_neg (by norm_num : ¬ (3 : Nat) < 3), if_pos htrue] at h
      simpa [granulateChannelsOp] using h

/-- Counterexample to C9 as stated: for `amount = -2` the draw at
`r = 9/10` is `-1`, the value `-2` is attained for `amount = +2` (at
`r = 0`) but is never drawn for `amount = -2`: the two ranges differ, so a
negative amount is not treated as its absolute magnitude. -/
theorem claim_C9_counterexample :
    granulateDelta (-2) (9/10) = -1 ∧
    granulateDelta 2 0 = -2 ∧
    (∀ r : ℚ, 0 ≤ r → r < 1 → granulateDelta (-2) r ≠ -2) := by
  have hr2 : round (-2 : ℚ) = -2 := by norm_num [round_eq]
  have hp2 : round (2 : ℚ) = 2 := by norm_num [round_eq]
  refine ⟨?_, ?_, ?_⟩
  · rw [granulateDelta_eq, hr2]
    norm_num
  · rw [granulateDelta_eq, hp2]
    norm_num
  · intro r hr0 hr1 heq
    rw [granulateDelta_eq, hr2] at heq
    have hx : r * (2 * (((-2 : ℤ)) : ℚ) + 1) = r * (-3) := by
      push_cast
      ring
    rw [hx] at heq
    have hfl : ⌊r * (-3)⌋ = -4 := by omega
    have hiff := (Int.floor_eq_iff).mp hfl
    have h2 := hiff.2
    push_cast at h2
    nlinarith

/-- C9 amended: the source rounds the amount first and draws from
`randomIntInclusive(-a, a)` with `a = round(amount)`.  For `a ≥ 0` every
delta lies in the symmetric range `[-a, a]`; for `a < 0` every delta lies
in the asymmetric range `[a + 1, -a]` — a negative amount is NOT treated as
its absolute magnitude. -/
theorem claim_C9_amended (amount r : ℚ) (hr0 : 0 ≤ r) (hr1 : r < 1) :
    (0 ≤ round amount →
      -(round amount) ≤ granulateDelta amount r ∧
        granulateDelta amount r ≤ round amount) ∧
    (round amount < 0 →
      round amount + 1 ≤ granulateDelta amount r ∧
        granulateDelta amount r ≤ -(round amount)) :=
  ⟨fun ha => granulateDelta_range_nonneg amount r ha hr0 hr1,
   fun ha => granulateDelta_range_neg amount r ha hr0 hr1⟩

/-- Witness for the amended C9 at `amount = -2`, `r = 1/2`. -/
theorem claim_C9_witness :
    (0 ≤ round (-2 : ℚ) →
      -(round (-2 : ℚ)) ≤ granulateDelta (-2) (1/2) ∧
        granulateDelta (-2) (1/2) ≤ round (-2 : ℚ)) ∧
    (round (-2 : ℚ) < 0 →
      round (-2 : ℚ) + 1 ≤ granulateDelta (-2) (1/2) ∧
        granulateDelta (-2) (1/2) ≤ -(round (-2 : ℚ))) :=
  claim_C9_amended (-2) (1/2) (by norm_num) (by norm_num)

/-- Counterexample to C6 as stated: with a 2×1 main canvas at density 1 and
a 1×1 offscreen target at density 1, the loop bound is 8 samples while the
target's buffer has 4, and sample index 4 — beyond the target's buffer — is
modified by `granulateSimple`. -/
theorem claim_C6_counterexample :
    granulateTotalSamples 2 1 1 (some ⟨1, 1, 1⟩) = 8 ∧
    surfaceBufferLength 1 1 1 = 4 ∧
    granulateTotalSamples 2 1 1 (some ⟨1, 1, 1⟩) ≠ surfaceBufferLength 1 1 1 ∧
    granulateSimpleOp 1 (some false) 2 1 1 (some ⟨1, 1, 1⟩)
      (fun _ => 9/10) (fun _ => 0) 4 = 1 := by
  refine ⟨rfl, rfl, by decide, ?_⟩
  have hd : granulateDelta 1 (9/10) = 1 := by
    have h1 : round (1 : ℚ) = 1 := by norm_num [round_eq]
    rw [granulateDelta_eq, h1]
    norm_num
  have h := granulateSimpleLoop_value (fun _ => 9/10) 1 false (fun _ => 0)
    2 1 0 (by norm_num) (by norm_num)
  norm_num [hd] at h
  show granulateSimpleLoop (fun _ => 9/10) 1 false (fun _ => 0) 2 4 = 1
  exact h

/-- C6 amended: every granulate/tinker pass iterates over exactly
`4 × mainWidth × density × mainHeight × density` samples, where
`mainWidth`/`mainHeight` are the MAIN canvas dimensions even when an
offscreen buffer is targeted (only the density factor comes from the
target).  This equals the target's own buffer length when the target is the
default canvas (or shares the canvas's dimensions).  Within the iterated
range every sample is written exactly once from its prior value (the alpha
sample only when the flag is set); no index at or beyond the iterated range
is touched; `tinkerPixels` invokes its callback once per iterated pixel
with arguments `(4k, total)`. -/
theorem claim_C6_amended (amount : ℚ) (alphaArg : Option Bool)
    (mainWidth mainHeight mainDensity : Nat) (pg : Option GraphicsBuffer)
    (rs : Nat → ℚ) (px : Nat → ℤ) :
    (pg = none →
      granulateTotalSamples mainWidth mainHeight mainDensity pg =
        surfaceBufferLength mainWidth mainHeight mainDensity) ∧
    (∀ g : GraphicsBuffer, pg = some g →
      granulateTotalSamples mainWidth mainHeight mainDensity pg =
        surfaceBufferLength mainWidth mainHeight g.density) ∧
    (∀ j : Nat,
      granulateTotalSamples mainWidth mainHeight mainDensity pg ≤ j →
      granulateSimpleOp amount alphaArg mainWidth mainHeight mainDensity pg
        rs px j = px j ∧
      granulateChannelsOp amount alphaArg mainWidth mainHeight mainDensity pg
        rs px j = px j) ∧
    (∀ p c : Nat, c < 4 →
      4 * p + c < granulateTotalSamples mainWidth mainHeight mainDensity pg →
      granulateSimpleOp amount alphaArg mainWidth mainHeight mainDensity pg
          rs px (4 * p + c) =
        (if c < 3 then px (4 * p + c) + granulateDelta amount (rs p)
         else if resolveAlpha alphaArg then
          px (4 * p + c) + granulateDelta amount (rs p)
         else px (4 * p + c))) ∧
    ((tinkerPixelsCalls mainWidth mainHeight mainDensity pg).length =
        granulateTotalSamples mainWidth mainHeight mainDensity pg / 4 ∧
      ∀ pr ∈ tinkerPixelsCalls mainWidth mainHeight mainDensity pg,
        pr.1 < granulateTotalSamples mainWidth mainHeight mainDensity pg ∧
        pr.2 = granulateTotalSamples mainWidth mainHeight mainDensity pg ∧
        pr.1 % 4 = 0) := by
  have hdiv := granulateTotalSamples_div4 mainWidth mainHeight mainDensity pg
  refine ⟨?_, ?_, ?_, ?_, ?_, ?_⟩
  · intro hnone
    subst hnone
    rfl
  · intro g hg
    subst hg
    rfl
  · intro j hj
    constructor
    · simpa [granulateSimpleOp] using
        granulateSimpleLoop_untouched rs amount (resolveAlpha alphaArg) px
          _ j (by omega)
    · simpa [granulateChannelsOp] using
        granulateChannelsLoop_untouched rs amount (resolveAlpha alphaArg) px
          _ j (by omega)
  · intro p c hc hlt
    have hple : p <
        granulateTotalSamples mainWidth mainHeight mainDensity pg / 4 := by
      omega
    have h := granulateSimpleLoop_value rs amount (resolveAlpha alphaArg)
      px _ p c hple hc
    simpa [granulateSimpleOp] using h
  · simp [tinkerPixelsCalls]
  · intro pr hpr
    unfold tinkerPixelsCalls at hpr
    simp only [List.mem_map, List.mem_range] at hpr
    obtain ⟨k, hk, hkeq⟩ := hpr
    subst hkeq
    refine ⟨by omega, rfl, by omega⟩

/-- C10: config is a required parameter in practice.  Validation accepts an
undefined config argument (it rejects only a defined non-object one), yet a
call that omits the config fails with a TypeError as soon as the blend-mode
resolution reads `config.mode` — the operation returns an error and issues
no draws. -/
theorem claim_C10 :
    (validateTextureOverlay false true (ConfigArg.prim JsPrim.undefined)
        false false = none) ∧
    (∀ p : JsPrim, p ≠ JsPrim.undefined →
      ∃ msg : String, validateTextureOverlay false true (ConfigArg.prim p)
        false false = some msg) ∧
    (∀ (textureWidth textureHeight W H r1 r2 : ℚ) (s : TOState)
        (fuel : Nat),
      textureOverlayOp false true textureWidth textureHeight
          (ConfigArg.prim JsPrim.undefined) false false W H r1 r2 s fuel =
        Except.error (JsError.typeError
          "Cannot read properties of undefined (reading mode)")) := by
  refine ⟨rfl, ?_, ?_⟩
  · intro p hp
    cases p with
    | undefined => exact absurd rfl hp
    | number q => exact ⟨_, rfl⟩
    | boolean b => exact ⟨_, rfl⟩
    | str s => exact ⟨_, rfl⟩
  · intro textureWidth textureHeight W H r1 r2 s fuel
    rfl
